import Mathlib

/-!
A shallow embedding of the `AxpyInterface` class of
`src/include/elemental/axpy_interface.hpp` (the Elemental library's
one-sided axpy put/get protocol built on non-blocking message passing),
together with theorems settling the specification claims about it.

Modelling conventions:
* C++ `int` quantities (matrix offsets, extents, header fields) are `Int`;
  grid dimensions and ranks, loop counters and slot indices are `Nat`
  (they are nonnegative throughout the source).
* MPI calls are replaced by oracles: a completion-test oracle
  (`Nat → Nat → Bool`, peer and slot to "has this send finished") and
  explicit `Option`-valued probe results for incoming messages.
* Send buffers hold only their requested size (a `Nat`, counted in
  payload entries); the byte-level `memcpy` packing is modelled by the
  abstract message type `Msg`, which carries the header record and the
  payload entry list in pack order.
* A C++ `throw` is modelled by the `err` constructor, which carries the
  state at the moment of the throw (all throws in this file occur before
  any mutation, which the theorems make explicit).
-/

namespace Elemental

/-- Truncation-towards-zero remainder, the semantics of the C++ `%`
operator on `int` (C++11 and later). -/
def cppMod (a b : Int) : Int := Int.tmod a b

/-- Modelled from the spec: the Process-Grid Coordinate Math collaborator
(spec section 2 and the glossary entry for cyclic distribution), whose
implementation is not under `src/`.  `Shift rank align m` is the first
global index owned by the process with coordinate `rank` when global
index 0 is owned by coordinate `align` and ownership cycles with period
`m`; ownership of global index `g` thus belongs to the rank with
`g ≡ rank - align  [mod m]`. -/
def Shift (rank align m : Int) : Int := (rank - align) % m

/-- Modelled from the spec: the Process-Grid Coordinate Math collaborator
(spec section 2), whose implementation is not under `src/`.
`LocalLength n shift m` is the number of global indices in `[0, n)`
owned locally, i.e. the number of `k < n` with `k ≡ shift  [mod m]`. -/
def LocalLength (n shift m : Int) : Int :=
  if shift < n then (n - shift - 1) / m + 1 else 0

/-- The `AxpyType` enumeration of the source. -/
inductive AxpyType where
  | LOCAL_TO_GLOBAL
  | GLOBAL_TO_LOCAL
deriving DecidableEq

/-- The process grid collaborator, as consumed by the interface:
`r = g.Height()`, `c = g.Width()`, `myRow = g.MCRank()`,
`myCol = g.MRRank()`; `g.Size()` is `r * c`. -/
structure Grid where
  r : Nat
  c : Nat
  myRow : Nat
  myCol : Nat
deriving DecidableEq

/-- The attached distributed matrix collaborator (`DistMatrix<T,MC,MR>`):
global shape, distribution alignments, this process's shifts, its grid,
and its local buffer (`localEntry a b` is local buffer entry `(a,b)`,
column-major with leading dimension abstracted away). -/
structure DistMat (T : Type) where
  height : Int
  width : Int
  colAlignment : Int
  rowAlignment : Int
  colShift : Int
  rowShift : Int
  grid : Grid
  localEntry : Int → Int → T

/-- A caller-side sequential matrix (`Matrix<T>`): shape plus buffer
accessor (`entry a b` is buffer entry `(a,b)`, column-major with the
leading dimension abstracted away). -/
structure LocalMat (T : Type) where
  height : Int
  width : Int
  entry : Int → Int → T

/-- `struct LocalToGlobalHeader` of the source. -/
structure LocalToGlobalHeader (T : Type) where
  i : Int
  j : Int
  height : Int
  width : Int
  alpha : T
deriving DecidableEq

/-- `struct GlobalToLocalRequestHeader` of the source. -/
structure GlobalToLocalRequestHeader where
  i : Int
  j : Int
  height : Int
  width : Int
deriving DecidableEq

/-- `struct GlobalToLocalReplyHeader` of the source. -/
structure GlobalToLocalReplyHeader where
  processRow : Int
  processCol : Int
deriving DecidableEq

/-- An outbound message, one constructor per MPI tag of the source
(`DATA_TAG`, `DATA_REQUEST_TAG`, `DATA_REPLY_TAG`, `EOM_TAG`), carrying
the header record and the payload entries in pack order. -/
inductive Msg (T : Type) where
  | data (dest : Nat) (header : LocalToGlobalHeader T) (payload : List T)
  | request (dest : Nat) (header : GlobalToLocalRequestHeader)
  | reply (dest : Nat) (header : GlobalToLocalReplyHeader) (payload : List T)
  | eom (dest : Nat)
deriving DecidableEq

/-- The mutable fields of `AxpyInterface` that the protocol logic reads
and writes.  Send-buffer vectors are modelled by their sizes, MPI request
handles by `Unit` placeholders (their completion is an oracle). -/
structure IfaceState (T : Type) where
  attachedForLocalToGlobal : Bool
  attachedForGlobalToLocal : Bool
  localToGlobalMat : DistMat T
  globalToLocalMat : DistMat T
  sentEomTo : List Bool
  haveEomFrom : List Bool
  sendingData : List (List Bool)
  sendingRequest : List (List Bool)
  sendingReply : List (List Bool)
  dataVectors : List (List Nat)
  requestVectors : List (List Nat)
  replyVectors : List (List Nat)
  dataSendRequests : List (List Unit)
  requestSendRequests : List (List Unit)
  replySendRequests : List (List Unit)

/-- Result of one interface operation: either a raised logic error
carrying the state at the moment of the throw, or the updated state plus
the list of sends issued, in issue order. -/
inductive StepResult (T : Type) where
  | err (msg : String) (st : IfaceState T)
  | ok (st : IfaceState T) (sent : List (Msg T))

/-- The state component of a `StepResult`. -/
def StepResult.state {T : Type} : StepResult T → IfaceState T
  | .err _ st => st
  | .ok st _ => st

/-- The sends of a `StepResult` (none for a raised error). -/
def StepResult.sent {T : Type} : StepResult T → List (Msg T)
  | .err _ _ => []
  | .ok _ sent => sent

/-- Whether a `StepResult` is a raised error. -/
def StepResult.isErr {T : Type} : StepResult T → Bool
  | .err _ _ => true
  | .ok _ _ => false

/-- `std::vector::resize(p, d)`: keep the first `p` elements, pad with
`d` up to length `p`. -/
def vecResize {α : Type} (l : List α) (p : Nat) (d : α) : List α :=
  l.take p ++ List.replicate (p - l.length) d

/-- Pointwise additive update of a buffer function: add `v` at position
`(a, b)`. -/
def addAt {T : Type} [Add T] (a b : Int) (v : T) (f : Int → Int → T) :
    Int → Int → T :=
  fun x y => if x = a ∧ y = b then f x y + v else f x y

/-- Pack a `localHeight × localWidth` region column-major: entry `(s,t)`
of the region lands at payload position `t * localHeight + s`.  Both the
put path and the reply path of the source pack with this double loop. -/
def packRegion {T : Type} (entryAt : Nat → Nat → T)
    (localHeight localWidth : Int) : List T :=
  (List.range localWidth.toNat).flatMap
    (fun t => (List.range localHeight.toNat).map (fun s => entryAt s t))

/-- The scan loop of `AxpyInterface::ReadyForSend`: walk the slots from
index `i`; a slot whose status flag is up is completion-tested (oracle
`test`); the first slot that is not (or no longer) in flight is marked
in flight, resized to `sendSize` and returned.  `none` means every slot
is still in flight (and then no status flag has visibly changed). -/
def readyScan (test : Nat → Bool) (sendSize : Nat) :
    Nat → List Nat → List Bool → Option (Nat × List Nat × List Bool)
  | _, [], _ => none
  | _, _ :: _, [] => none
  | i, v :: vs, st :: sts =>
    if st && ! test i then
      match readyScan test sendSize (i + 1) vs sts with
      | none => none
      | some (idx, vs2, sts2) => some (idx, v :: vs2, true :: sts2)
    else
      some (i, sendSize :: vs, true :: sts)

/-- The value returned by the `ReadyForSend` model: the chosen slot index
plus the three updated parallel vectors. -/
structure ReadyResult where
  index : Nat
  sendVectors : List Nat
  requests : List Unit
  requestStatuses : List Bool
deriving DecidableEq

/-- `AxpyInterface::ReadyForSend`: reclaim the first slot whose previous
send completed, or append a fresh slot when every slot is in flight. -/
def ReadyForSend (test : Nat → Bool) (sendSize : Nat)
    (sendVectors : List Nat) (requests : List Unit)
    (requestStatuses : List Bool) : ReadyResult :=
  match readyScan test sendSize 0 sendVectors requestStatuses with
  | some (idx, vs, sts) => ⟨idx, vs, requests, sts⟩
  | none =>
    ⟨sendVectors.length, sendVectors ++ [sendSize], requests ++ [()],
      requestStatuses ++ [true]⟩

/-- Map over a list with the absolute index threaded from `i`. -/
def mapWithIdx {α β : Type} (f : Nat → α → β) : Nat → List α → List β
  | _, [] => []
  | i, a :: as => f i a :: mapWithIdx f (i + 1) as

/-- One family of `UpdateRequestStatuses` loops: every raised in-flight
flag is completion-tested and lowered when the oracle reports the send
finished. -/
def testFlags (test : Nat → Nat → Bool) (flags : List (List Bool)) :
    List (List Bool) :=
  mapWithIdx
    (fun i row => mapWithIdx (fun j b => if b then ! test i j else b) 0 row)
    0 flags

/-- `AxpyInterface::UpdateRequestStatuses`. -/
def UpdateRequestStatuses {T : Type}
    (testData testRequest testReply : Nat → Nat → Bool)
    (st : IfaceState T) : IfaceState T :=
  { st with
    sendingData := testFlags testData st.sendingData
    sendingRequest := testFlags testRequest st.sendingRequest
    sendingReply := testFlags testReply st.sendingReply }

/-- The `shouldSendEom` condition of `HandleEoms` for peer `i`: no data,
request or reply send to `i` is still flagged as in flight. -/
def peerQuiet {T : Type} (st : IfaceState T) (i : Nat) : Bool :=
  !((st.sendingData.getD i []).any (fun b => b)) &&
  !((st.sendingRequest.getD i []).any (fun b => b)) &&
  !((st.sendingReply.getD i []).any (fun b => b))

/-- The peer loop of `HandleEoms`: for each peer (list position plus the
start index `i`) that has not yet been sent an End-Of-Message and whose
channels are quiet, mark it sent and record the issued EOM. -/
def eomSweep (quiet : Nat → Bool) : Nat → List Bool → List Bool × List Nat
  | _, [] => ([], [])
  | i, b :: rest =>
    let tail := eomSweep quiet (i + 1) rest
    if !b && quiet i then (true :: tail.1, i :: tail.2)
    else (b :: tail.1, tail.2)

/-- `AxpyInterface::HandleEoms`: refresh the in-flight flags, issue an
EOM to every quiet peer not yet EOMed, then consume at most one probed
inbound EOM (`incomingEom` is the probe result).  Returns the new state
and the EOM sends issued. -/
def HandleEoms {T : Type}
    (testData testRequest testReply : Nat → Nat → Bool)
    (incomingEom : Option Nat) (st : IfaceState T) :
    IfaceState T × List (Msg T) :=
  let st1 := UpdateRequestStatuses testData testRequest testReply st
  let swept := eomSweep (peerQuiet st1) 0 st1.sentEomTo
  let st2 := { st1 with sentEomTo := swept.1 }
  let st3 :=
    match incomingEom with
    | none => st2
    | some source => { st2 with haveEomFrom := st2.haveEomFrom.set source true }
  (st3, swept.2.map Msg.eom)

/-- A probed-and-received `DATA_TAG` message: source rank, unpacked
header, payload entries in pack order. -/
structure IncomingData (T : Type) where
  source : Nat
  header : LocalToGlobalHeader T
  payload : List T

/-- The accumulation loop of `HandleLocalToGlobalData`: entry
`(iLocalOffset + s, jLocalOffset + t)` of the local buffer gains
`alpha * payload[t * localHeight + s]`. -/
def accumRegion {T : Type} [Add T] [Mul T] [Zero T] (alpha : T)
    (payload : List T) (localHeight localWidth iLocalOffset jLocalOffset : Int)
    (f : Int → Int → T) : Int → Int → T :=
  (List.range localWidth.toNat).foldl
    (fun g t =>
      (List.range localHeight.toNat).foldl
        (fun g2 s =>
          addAt (iLocalOffset + Int.ofNat s) (jLocalOffset + Int.ofNat t)
            (alpha * payload.getD (t * localHeight.toNat + s) 0) g2)
        g)
    f

/-- `AxpyInterface::HandleLocalToGlobalData` (non-RELEASE build, so the
header validation block is active): service at most one probed update
message, validating the header before accumulating into the attached
target matrix. -/
def HandleLocalToGlobalData {T : Type} [Add T] [Mul T] [Zero T]
    (incoming : Option (IncomingData T)) (st : IfaceState T) : StepResult T :=
  match incoming with
  | none => .ok st []
  | some msg =>
    let Y := st.localToGlobalMat
    let g := Y.grid
    let r : Int := g.r
    let c : Int := g.c
    let i := msg.header.i
    let j := msg.header.j
    let height := msg.header.height
    let width := msg.header.width
    if height < 0 ∨ width < 0 then
      .err "Unpacked heights were negative" st
    else if i < 0 ∨ j < 0 then
      .err "Offsets must be non-negative" st
    else if i + height > Y.height ∨ j + width > Y.width then
      .err "Submatrix out of bounds of global matrix" st
    else
      let colAlignment := cppMod (Y.colAlignment + i) r
      let rowAlignment := cppMod (Y.rowAlignment + j) c
      let colShift := Shift (g.myRow : Int) colAlignment r
      let rowShift := Shift (g.myCol : Int) rowAlignment c
      let localHeight := LocalLength height colShift r
      let localWidth := LocalLength width rowShift c
      let iLocalOffset := LocalLength i Y.colShift r
      let jLocalOffset := LocalLength j Y.rowShift c
      let newEntry :=
        accumRegion msg.header.alpha msg.payload localHeight localWidth
          iLocalOffset jLocalOffset Y.localEntry
      .ok { st with localToGlobalMat := { Y with localEntry := newEntry } } []

/-- A probed-and-received `DATA_REQUEST_TAG` message. -/
structure IncomingRequest where
  source : Nat
  header : GlobalToLocalRequestHeader
deriving DecidableEq

/-- `AxpyInterface::HandleGlobalToLocalRequest`: service at most one
probed read request by packing and sending the locally owned part of the
requested region back to the requester.  The source performs no
validation of the request header. -/
def HandleGlobalToLocalRequest {T : Type} (testReply : Nat → Nat → Bool)
    (incoming : Option IncomingRequest) (st : IfaceState T) : StepResult T :=
  match incoming with
  | none => .ok st []
  | some req =>
    let X := st.globalToLocalMat
    let g := X.grid
    let r : Int := g.r
    let c : Int := g.c
    let i := req.header.i
    let j := req.header.j
    let height := req.header.height
    let width := req.header.width
    let colAlignment := cppMod (X.colAlignment + i) r
    let rowAlignment := cppMod (X.rowAlignment + j) c
    let colShift := Shift (g.myRow : Int) colAlignment r
    let rowShift := Shift (g.myCol : Int) rowAlignment c
    let iLocalOffset := LocalLength i X.colShift r
    let jLocalOffset := LocalLength j X.rowShift c
    let localHeight := LocalLength height colShift r
    let localWidth := LocalLength width rowShift c
    let numEntries := localHeight * localWidth
    let replyHeader : GlobalToLocalReplyHeader :=
      ⟨(g.myRow : Int), (g.myCol : Int)⟩
    let source := req.source
    let rfs :=
      ReadyForSend (testReply source) numEntries.toNat
        (st.replyVectors.getD source []) (st.replySendRequests.getD source [])
        (st.sendingReply.getD source [])
    let payload :=
      packRegion
        (fun s t =>
          X.localEntry (iLocalOffset + (s : Int)) (jLocalOffset + (t : Int)))
        localHeight localWidth
    let st2 :=
      { st with
        replyVectors := st.replyVectors.set source rfs.sendVectors
        replySendRequests := st.replySendRequests.set source rfs.requests
        sendingReply := st.sendingReply.set source rfs.requestStatuses }
    .ok st2 [Msg.reply source replyHeader payload]

/-- The destination-walk loop of `AxpyLocalToGlobal`: starting with the
channel state `st` and the already issued sends `acc`, run `steps` more
iterations from grid position `(row, col)`. -/
def putSteps {T : Type} (testData : Nat → Nat → Bool) (X : LocalMat T)
    (header : LocalToGlobalHeader T) (r c : Nat)
    (colAlignment rowAlignment : Int) :
    Nat → Nat → Nat → IfaceState T → List (Msg T) →
    IfaceState T × List (Msg T)
  | 0, _, _, st, acc => (st, acc)
  | steps + 1, row, col, st, acc =>
    let colShift := Shift (row : Int) colAlignment (r : Int)
    let rowShift := Shift (col : Int) rowAlignment (c : Int)
    let localHeight := LocalLength header.height colShift (r : Int)
    let localWidth := LocalLength header.width rowShift (c : Int)
    let numEntries := localHeight * localWidth
    let row2 := (row + 1) % r
    let col2 := if row2 = 0 then (col + 1) % c else col
    if numEntries ≠ 0 then
      let destination := row + r * col
      let rfs :=
        ReadyForSend (testData destination) numEntries.toNat
          (st.dataVectors.getD destination [])
          (st.dataSendRequests.getD destination [])
          (st.sendingData.getD destination [])
      let payload :=
        packRegion
          (fun s t =>
            X.entry (colShift + (s : Int) * (r : Int))
              (rowShift + (t : Int) * (c : Int)))
          localHeight localWidth
      let st2 :=
        { st with
          dataVectors := st.dataVectors.set destination rfs.sendVectors
          dataSendRequests := st.dataSendRequests.set destination rfs.requests
          sendingData := st.sendingData.set destination rfs.requestStatuses }
      putSteps testData X header r c colAlignment rowAlignment steps row2 col2
        st2 (acc ++ [Msg.data destination header payload])
    else
      putSteps testData X header r c colAlignment rowAlignment steps row2 col2
        st acc

/-- `AxpyInterface::AxpyLocalToGlobal`: validate the bounds, then walk
the grid and fire one non-blocking data send per destination owning part
of the region. -/
def AxpyLocalToGlobal {T : Type} (testData : Nat → Nat → Bool) (alpha : T)
    (X : LocalMat T) (i j : Int) (st : IfaceState T) : StepResult T :=
  let Y := st.localToGlobalMat
  if i < 0 ∨ j < 0 then
    .err "Submatrix offsets must be non-negative" st
  else if i + X.height > Y.height ∨ j + X.width > Y.width then
    .err "Submatrix out of bounds of global matrix" st
  else
    let g := Y.grid
    let colAlignment := cppMod (Y.colAlignment + i) (g.r : Int)
    let rowAlignment := cppMod (Y.rowAlignment + j) (g.c : Int)
    let header : LocalToGlobalHeader T := ⟨i, j, X.height, X.width, alpha⟩
    let out :=
      putSteps testData X header g.r g.c colAlignment rowAlignment
        (g.r * g.c) g.myRow g.myCol st []
    .ok out.1 out.2

/-- A probed-and-received `DATA_REPLY_TAG` message. -/
structure IncomingReply (T : Type) where
  source : Nat
  header : GlobalToLocalReplyHeader
  payload : List T

/-- One iteration of traffic visible to the wait loop of
`AxpyGlobalToLocal`: the probe result for an inbound request and the
probe result for an inbound reply. -/
structure GTLEvent (T : Type) where
  incomingRequest : Option IncomingRequest
  incomingReply : Option (IncomingReply T)

/-- Result of `AxpyGlobalToLocal`: a raised error, normal completion, or
`blocked` when the supplied event trace ran out before all replies
arrived (the source would keep spinning at that point). -/
inductive GTLResult (T : Type) where
  | err (msg : String) (st : IfaceState T) (Y : LocalMat T)
  | ok (st : IfaceState T) (Y : LocalMat T) (sent : List (Msg T))
  | blocked (st : IfaceState T) (Y : LocalMat T) (sent : List (Msg T))

/-- Whether a `GTLResult` is a raised error. -/
def GTLResult.isErr {T : Type} : GTLResult T → Bool
  | .err _ _ _ => true
  | .ok _ _ _ => false
  | .blocked _ _ _ => false

/-- The interface state component of a `GTLResult`. -/
def GTLResult.state {T : Type} : GTLResult T → IfaceState T
  | .err _ st _ => st
  | .ok st _ _ => st
  | .blocked st _ _ => st

/-- The caller-buffer component of a `GTLResult`. -/
def GTLResult.dest {T : Type} : GTLResult T → LocalMat T
  | .err _ _ Y => Y
  | .ok _ Y _ => Y
  | .blocked _ Y _ => Y

/-- The reply-unpacking loop of `AxpyGlobalToLocal`: entry
`(colShift + s*r, rowShift + t*c)` of the caller buffer gains
`alpha * payload[t * localHeight + s]`. -/
def gtlUnpack {T : Type} [Add T] [Mul T] [Zero T] (alpha : T)
    (payload : List T) (localHeight localWidth colShift rowShift r c : Int)
    (f : Int → Int → T) : Int → Int → T :=
  (List.range localWidth.toNat).foldl
    (fun g t =>
      (List.range localHeight.toNat).foldl
        (fun g2 s =>
          addAt (colShift + Int.ofNat s * r) (rowShift + Int.ofNat t * c)
            (alpha * payload.getD (t * localHeight.toNat + s) 0) g2)
        g)
    f

/-- The request-broadcast loop of `AxpyGlobalToLocal`, iterated over the
given rank sequence: one request send per rank, each through its own
`ReadyForSend` slot. -/
def sendRequestsAux {T : Type} (testRequest : Nat → Nat → Bool)
    (header : GlobalToLocalRequestHeader) :
    List Nat → IfaceState T → List (Msg T) → IfaceState T × List (Msg T)
  | [], st, acc => (st, acc)
  | rank :: rest, st, acc =>
    let rfs :=
      ReadyForSend (testRequest rank) 0 (st.requestVectors.getD rank [])
        (st.requestSendRequests.getD rank []) (st.sendingRequest.getD rank [])
    let st2 :=
      { st with
        requestVectors := st.requestVectors.set rank rfs.sendVectors
        requestSendRequests := st.requestSendRequests.set rank rfs.requests
        sendingRequest := st.sendingRequest.set rank rfs.requestStatuses }
    sendRequestsAux testRequest header rest st2 (acc ++ [Msg.request rank header])

/-- The request-broadcast loop of `AxpyGlobalToLocal`: one request send
per rank of the grid, rank `0` through `p - 1`. -/
def sendRequests {T : Type} (testRequest : Nat → Nat → Bool)
    (header : GlobalToLocalRequestHeader) (p : Nat) (st : IfaceState T) :
    IfaceState T × List (Msg T) :=
  sendRequestsAux testRequest header (List.range p) st []

/-- The wait loop of `AxpyGlobalToLocal`: while fewer than `p` replies
are in, service one inbound request, then consume one probed reply if
present; each loop iteration consumes one event of the trace. -/
def gtlLoop {T : Type} [Add T] [Mul T] [Zero T]
    (testReply : Nat → Nat → Bool) (alpha : T) (X : DistMat T)
    (i j height width : Int) (p : Nat) :
    List (GTLEvent T) → Nat → IfaceState T → LocalMat T → List (Msg T) →
    GTLResult T
  | [], numReplies, st, Y, acc =>
    if p ≤ numReplies then .ok st Y acc else .blocked st Y acc
  | e :: rest, numReplies, st, Y, acc =>
    if p ≤ numReplies then .ok st Y acc
    else
      match HandleGlobalToLocalRequest testReply e.incomingRequest st with
      | .err m st2 => .err m st2 Y
      | .ok st2 ms =>
        match e.incomingReply with
        | none =>
          gtlLoop testReply alpha X i j height width p rest numReplies st2 Y
            (acc ++ ms)
        | some rep =>
          let r : Int := X.grid.r
          let c : Int := X.grid.c
          let colAlignment := cppMod (X.colAlignment + i) r
          let rowAlignment := cppMod (X.rowAlignment + j) c
          let colShift := Shift rep.header.processRow colAlignment r
          let rowShift := Shift rep.header.processCol rowAlignment c
          let localHeight := LocalLength height colShift r
          let localWidth := LocalLength width rowShift c
          let Y2 :=
            { Y with
              entry :=
                gtlUnpack alpha rep.payload localHeight localWidth colShift
                  rowShift r c Y.entry }
          gtlLoop testReply alpha X i j height width p rest (numReplies + 1)
            st2 Y2 (acc ++ ms)

/-- `AxpyInterface::AxpyGlobalToLocal`: validate that the requested
region fits inside the source (the source code performs no
nonnegativity check on `i` and `j` here), broadcast the request to every
rank, then cooperatively wait for all `p` replies, accumulating each
into the caller buffer `Y`. -/
def AxpyGlobalToLocal {T : Type} [Add T] [Mul T] [Zero T]
    (testRequest testReply : Nat → Nat → Bool) (alpha : T) (Y : LocalMat T)
    (i j : Int) (events : List (GTLEvent T)) (st : IfaceState T) :
    GTLResult T :=
  let X := st.globalToLocalMat
  let height := Y.height
  let width := Y.width
  if i + height > X.height ∨ j + width > X.width then
    .err "Invalid AxpyGlobalToLocal submatrix" st Y
  else
    let p := X.grid.r * X.grid.c
    let header : GlobalToLocalRequestHeader := ⟨i, j, height, width⟩
    let fanout := sendRequests testRequest header p st
    gtlLoop testReply alpha X i j height width p events 0 fanout.1 Y fanout.2

/-- The channel (re)initialisation common to both `Attach` overloads:
every per-peer vector is resized to the process count `p`. -/
def initChannels {T : Type} (p : Nat) (st : IfaceState T) : IfaceState T :=
  { st with
    sentEomTo := vecResize st.sentEomTo p false
    haveEomFrom := vecResize st.haveEomFrom p false
    sendingData := vecResize st.sendingData p []
    sendingRequest := vecResize st.sendingRequest p []
    sendingReply := vecResize st.sendingReply p []
    dataVectors := vecResize st.dataVectors p []
    requestVectors := vecResize st.requestVectors p []
    replyVectors := vecResize st.replyVectors p []
    dataSendRequests := vecResize st.dataSendRequests p []
    requestSendRequests := vecResize st.requestSendRequests p []
    replySendRequests := vecResize st.replySendRequests p [] }

/-- `AxpyInterface::Attach` (non-const overload, mutable matrix `Z`). -/
def Attach {T : Type} (axpyType : AxpyType) (Z : DistMat T)
    (st : IfaceState T) : StepResult T :=
  if st.attachedForLocalToGlobal || st.attachedForGlobalToLocal then
    .err "Must detach before reattaching." st
  else
    let st1 :=
      if axpyType = AxpyType.LOCAL_TO_GLOBAL then
        { st with attachedForLocalToGlobal := true, localToGlobalMat := Z }
      else
        { st with attachedForGlobalToLocal := true, globalToLocalMat := Z }
    .ok (initChannels (Z.grid.r * Z.grid.c) st1) []

/-- `AxpyInterface::Attach` (const overload, read-only matrix `X`). -/
def AttachConst {T : Type} (axpyType : AxpyType) (X : DistMat T)
    (st : IfaceState T) : StepResult T :=
  if st.attachedForLocalToGlobal || st.attachedForGlobalToLocal then
    .err "Must detach before reattaching." st
  else if axpyType = AxpyType.LOCAL_TO_GLOBAL then
    .err "Cannot update a constant matrix" st
  else
    let st1 := { st with attachedForGlobalToLocal := true, globalToLocalMat := X }
    .ok (initChannels (X.grid.r * X.grid.c) st1) []

/-! Auxiliary definitions used to state the claims. -/

/-- The sequence of grid positions visited by the destination walk of
`AxpyLocalToGlobal` when run for `steps` iterations from `(row, col)`:
the row coordinate advances cyclically each step, the column coordinate
advances when the row wraps to 0. -/
def putWalk (r c : Nat) : Nat → Nat → Nat → List (Nat × Nat)
  | 0, _, _ => []
  | steps + 1, row, col =>
    let row2 := (row + 1) % r
    let col2 := if row2 = 0 then (col + 1) % c else col
    (row, col) :: putWalk r c steps row2 col2

/-- The grid slots in row-major order of `(row, col)` (all columns of
row 0, then all columns of row 1, and so on), as the claim about the
walk order of `AxpyLocalToGlobal` describes it. -/
def rowMajorSlots (r c : Nat) : List (Nat × Nat) :=
  (List.range r).flatMap (fun row => (List.range c).map (fun col => (row, col)))

/-- The `numEntries` value `AxpyLocalToGlobal` computes for the grid
slot with rank `d` (rank decoding `d = row + r * col`): the number of
entries of the `height × width` region at offset `(i, j)` of `Y` that
slot `d` owns. -/
def ownedEntriesAt {T : Type} (Y : DistMat T) (height width i j : Int)
    (d : Nat) : Int :=
  let r : Int := Y.grid.r
  let c : Int := Y.grid.c
  let colAlignment := cppMod (Y.colAlignment + i) r
  let rowAlignment := cppMod (Y.rowAlignment + j) c
  LocalLength height (Shift ((d % Y.grid.r : Nat) : Int) colAlignment r) r *
    LocalLength width (Shift ((d / Y.grid.r : Nat) : Int) rowAlignment c) c

/-- The message (if any) that the destination-walk iteration of
`AxpyLocalToGlobal` emits at grid position `rc`: `some` exactly when the
slot owns at least one entry of the region. -/
def putMsgAt {T : Type} (X : LocalMat T) (header : LocalToGlobalHeader T)
    (r c : Nat) (colAlignment rowAlignment : Int) (rc : Nat × Nat) :
    Option (Msg T) :=
  let colShift := Shift (rc.1 : Int) colAlignment (r : Int)
  let rowShift := Shift (rc.2 : Int) rowAlignment (c : Int)
  let localHeight := LocalLength header.height colShift (r : Int)
  let localWidth := LocalLength header.width rowShift (c : Int)
  if localHeight * localWidth ≠ 0 then
    some (Msg.data (rc.1 + r * rc.2) header
      (packRegion
        (fun s t =>
          X.entry (colShift + (s : Int) * (r : Int))
            (rowShift + (t : Int) * (c : Int)))
        localHeight localWidth))
  else none

/-- The shift the put path computes for grid row `row`: the first row of
the region owned by that process row. -/
def putColShift {T : Type} (Y : DistMat T) (i : Int) (row : Nat) : Int :=
  Shift (row : Int) (cppMod (Y.colAlignment + i) (Y.grid.r : Int))
    (Y.grid.r : Int)

/-- The shift the put path computes for grid column `col`. -/
def putRowShift {T : Type} (Y : DistMat T) (j : Int) (col : Nat) : Int :=
  Shift (col : Int) (cppMod (Y.rowAlignment + j) (Y.grid.c : Int))
    (Y.grid.c : Int)

/-- The number of rows of the put region owned by grid row `row`. -/
def putLocalHeight {T : Type} (Y : DistMat T) (height i : Int) (row : Nat) :
    Int :=
  LocalLength height (putColShift Y i row) (Y.grid.r : Int)

/-- The number of columns of the put region owned by grid column
`col`. -/
def putLocalWidth {T : Type} (Y : DistMat T) (width j : Int) (col : Nat) :
    Int :=
  LocalLength width (putRowShift Y j col) (Y.grid.c : Int)

/-- The destinations of the data messages in a send list, in issue
order. -/
def dataDests {T : Type} : List (Msg T) → List Nat
  | [] => []
  | .data d _ _ :: rest => d :: dataDests rest
  | _ :: rest => dataDests rest

/-- For each data message: its payload length paired with the product
`header.height * header.width` (clamped to `Nat`), the value the wire
format claim predicts for the payload length. -/
def dataMsgSizes {T : Type} : List (Msg T) → List (Nat × Nat)
  | [] => []
  | .data _ h pl :: rest => (pl.length, (h.height * h.width).toNat) :: dataMsgSizes rest
  | _ :: rest => dataMsgSizes rest

/-! Concrete sample instances (over `T = Int`) used by witnesses and
counterexamples. -/

/-- A distributed matrix of the given shape on the given grid, with
alignments and shifts 0 and an all-zero local buffer. -/
def zeroMat (g : Grid) (h w : Int) : DistMat Int :=
  ⟨h, w, 0, 0, 0, 0, g, fun _ _ => 0⟩

/-- A freshly attached-for-put interface state on grid `g` with an
all-zero `h × w` target matrix and empty per-peer channels. -/
def samplePutState (g : Grid) (h w : Int) : IfaceState Int :=
  let p := g.r * g.c
  { attachedForLocalToGlobal := true
    attachedForGlobalToLocal := false
    localToGlobalMat := zeroMat g h w
    globalToLocalMat := zeroMat g h w
    sentEomTo := List.replicate p false
    haveEomFrom := List.replicate p false
    sendingData := List.replicate p []
    sendingRequest := List.replicate p []
    sendingReply := List.replicate p []
    dataVectors := List.replicate p []
    requestVectors := List.replicate p []
    replyVectors := List.replicate p []
    dataSendRequests := List.replicate p []
    requestSendRequests := List.replicate p []
    replySendRequests := List.replicate p [] }

/-- The same sample state attached for get instead of put. -/
def sampleGetState (g : Grid) (h w : Int) : IfaceState Int :=
  { samplePutState g h w with
    attachedForLocalToGlobal := false
    attachedForGlobalToLocal := true }

/-- An all-ones caller-side `h × w` buffer. -/
def onesLocal (h w : Int) : LocalMat Int := ⟨h, w, fun _ _ => 1⟩

/-- A completion-test oracle that reports every tested send finished. -/
def allDone : Nat → Nat → Bool := fun _ _ => true

/-- A single-process put state with one data send to peer 0 still
flagged in flight; once the completion test reports it finished,
`HandleEoms` may issue the EOM to peer 0. -/
def eomWitnessState : IfaceState Int :=
  { samplePutState ⟨1, 1, 0, 0⟩ 1 1 with sendingData := [[true]] }

/-! ## Theorems -/

/-- C2: a put call whose offsets are negative or whose region exceeds
the attached target's global shape raises a bounds error, and the error
is raised with the interface state exactly as it was on entry: no send
was initiated and neither the target matrix nor any per-peer channel
state was mutated. -/
theorem axpyLocalToGlobal_rejects_out_of_bounds {T : Type}
    (testData : Nat → Nat → Bool) (alpha : T) (X : LocalMat T) (i j : Int)
    (st : IfaceState T)
    (h : i < 0 ∨ j < 0 ∨ i + X.height > st.localToGlobalMat.height ∨
      j + X.width > st.localToGlobalMat.width) :
    ∃ m, AxpyLocalToGlobal testData alpha X i j st = StepResult.err m st := by
  simp only [AxpyLocalToGlobal]
  split
  · exact ⟨_, rfl⟩
  · split
    · exact ⟨_, rfl⟩
    · rename_i h1 h2
      exfalso
      rcases h with h | h | h | h
      · exact h1 (Or.inl h)
      · exact h1 (Or.inr h)
      · exact h2 (Or.inl h)
      · exact h2 (Or.inr h)

/-- Witness for C2 at a concrete negative offset. -/
theorem axpyLocalToGlobal_rejects_out_of_bounds_witness :
    ∃ m, AxpyLocalToGlobal allDone (1 : Int) (onesLocal 2 2) (-1) 0
        (samplePutState ⟨2, 2, 0, 0⟩ 2 2) =
      StepResult.err m (samplePutState ⟨2, 2, 0, 0⟩ 2 2) :=
  axpyLocalToGlobal_rejects_out_of_bounds allDone 1 (onesLocal 2 2) (-1) 0
    (samplePutState ⟨2, 2, 0, 0⟩ 2 2) (Or.inl (by decide))

/-- C3 counterexample: the get path does NOT reject negative offsets.
With a 5-row source and a 1-row destination buffer, the call with
`i = -1` passes the only bounds check in `AxpyGlobalToLocal`
(`i + height > X.Height() or j + width > X.Width()`) and proceeds to
issue its request broadcast instead of failing. -/
theorem axpyGlobalToLocal_negative_offset_not_rejected :
    GTLResult.isErr
        (AxpyGlobalToLocal allDone allDone (1 : Int) (onesLocal 1 1) (-1) 0 []
          (sampleGetState ⟨1, 1, 0, 0⟩ 5 1)) = false ∧
    (-1 : Int) < 0 := by
  constructor
  · rfl
  · decide

/-- C3 amended: a get call whose region exceeds the source's global
shape (`i + height > source.Height()` or `j + width > source.Width()`)
raises a bounds error before any request is sent, with both the
interface state and the caller's destination buffer exactly as they
were on entry; negative offsets, however, are not rejected by this
check. -/
theorem axpyGlobalToLocal_rejects_oversized_region {T : Type}
    [Add T] [Mul T] [Zero T] (testRequest testReply : Nat → Nat → Bool)
    (alpha : T) (Y : LocalMat T) (i j : Int) (events : List (GTLEvent T))
    (st : IfaceState T)
    (h : i + Y.height > st.globalToLocalMat.height ∨
      j + Y.width > st.globalToLocalMat.width) :
    AxpyGlobalToLocal testRequest testReply alpha Y i j events st =
      GTLResult.err "Invalid AxpyGlobalToLocal submatrix" st Y := by
  simp only [AxpyGlobalToLocal]
  split
  · rfl
  · rename_i h1
    exact absurd h h1

/-- Witness for the amended C3 at a concrete oversized region. -/
theorem axpyGlobalToLocal_rejects_oversized_region_witness :
    AxpyGlobalToLocal allDone allDone (1 : Int) (onesLocal 2 1) 4 0 []
        (sampleGetState ⟨1, 1, 0, 0⟩ 5 1) =
      GTLResult.err "Invalid AxpyGlobalToLocal submatrix"
        (sampleGetState ⟨1, 1, 0, 0⟩ 5 1) (onesLocal 2 1) :=
  axpyGlobalToLocal_rejects_oversized_region allDone allDone 1 (onesLocal 2 1)
    4 0 [] (sampleGetState ⟨1, 1, 0, 0⟩ 5 1) (Or.inl (by decide))

/-- C4: an incoming update message whose unpacked header has a negative
offset or extent, or a region exceeding the target's global shape, makes
`HandleLocalToGlobalData` raise a bounds error with the state exactly as
it was on entry — in particular nothing was accumulated into the
target's local buffer. -/
theorem handleLocalToGlobalData_rejects_bad_header {T : Type}
    [Add T] [Mul T] [Zero T] (msg : IncomingData T) (st : IfaceState T)
    (h : msg.header.i < 0 ∨ msg.header.j < 0 ∨ msg.header.height < 0 ∨
      msg.header.width < 0 ∨
      msg.header.i + msg.header.height > st.localToGlobalMat.height ∨
      msg.header.j + msg.header.width > st.localToGlobalMat.width) :
    ∃ m, HandleLocalToGlobalData (some msg) st = StepResult.err m st := by
  simp only [HandleLocalToGlobalData]
  split
  · exact ⟨_, rfl⟩
  · split
    · exact ⟨_, rfl⟩
    · split
      · exact ⟨_, rfl⟩
      · rename_i h1 h2 h3
        exfalso
        rcases h with h | h | h | h | h | h
        · exact h2 (Or.inl h)
        · exact h2 (Or.inr h)
        · exact h1 (Or.inl h)
        · exact h1 (Or.inr h)
        · exact h3 (Or.inl h)
        · exact h3 (Or.inr h)

/-- Witness for C4 at a concrete out-of-bounds header. -/
theorem handleLocalToGlobalData_rejects_bad_header_witness :
    ∃ m, HandleLocalToGlobalData (some ⟨0, ⟨0, 0, 3, 1, (1 : Int)⟩, [1, 1, 1]⟩)
        (samplePutState ⟨1, 1, 0, 0⟩ 2 2) =
      StepResult.err m (samplePutState ⟨1, 1, 0, 0⟩ 2 2) :=
  handleLocalToGlobalData_rejects_bad_header
    ⟨0, ⟨0, 0, 3, 1, (1 : Int)⟩, [1, 1, 1]⟩ (samplePutState ⟨1, 1, 0, 0⟩ 2 2)
    (Or.inr (Or.inr (Or.inr (Or.inr (Or.inl (by decide))))))

/-- C9: `Attach` raises a usage error when the instance is already
attached (either overload, either mode), and the const overload raises a
usage error for `LOCAL_TO_GLOBAL`; in every failure case the error is
raised with the state exactly as it was on entry (so no communication
was issued and the caller may retry), as the `err` result carrying the
entry state records. -/
theorem attach_usage_errors {T : Type} (axpyType : AxpyType) (Z : DistMat T)
    (st : IfaceState T) :
    ((st.attachedForLocalToGlobal || st.attachedForGlobalToLocal) = true →
      Attach axpyType Z st = StepResult.err "Must detach before reattaching." st ∧
      AttachConst axpyType Z st =
        StepResult.err "Must detach before reattaching." st) ∧
    (∃ m, AttachConst AxpyType.LOCAL_TO_GLOBAL Z st = StepResult.err m st) := by
  constructor
  · intro h
    constructor
    · unfold Attach
      rw [if_pos h]
    · unfold AttachConst
      rw [if_pos h]
  · by_cases h : (st.attachedForLocalToGlobal || st.attachedForGlobalToLocal) = true
    · exact ⟨_, by unfold AttachConst; rw [if_pos h]⟩
    · exact ⟨"Cannot update a constant matrix",
        by unfold AttachConst; rw [if_neg h, if_pos rfl]⟩

/-- Witness for C9: attaching over an already attached instance fails
with the state unchanged. -/
theorem attach_usage_errors_witness :
    Attach AxpyType.GLOBAL_TO_LOCAL (zeroMat ⟨1, 1, 0, 0⟩ 1 1)
        (samplePutState ⟨1, 1, 0, 0⟩ 1 1) =
      StepResult.err "Must detach before reattaching."
        (samplePutState ⟨1, 1, 0, 0⟩ 1 1) :=
  ((attach_usage_errors AxpyType.GLOBAL_TO_LOCAL (zeroMat ⟨1, 1, 0, 0⟩ 1 1)
      (samplePutState ⟨1, 1, 0, 0⟩ 1 1)).1 (by decide)).1

/-- C10: `HandleGlobalToLocalRequest` validates nothing: for every
received request header — negative offsets and extents and regions
exceeding the source's shape included — it computes the local offsets
and extents, packs a reply headed by its own grid coordinates, and
issues exactly that reply send; no error branch exists. -/
theorem handleGlobalToLocalRequest_no_validation {T : Type}
    (testReply : Nat → Nat → Bool) (req : IncomingRequest)
    (st : IfaceState T) :
    ∃ st2 payload,
      HandleGlobalToLocalRequest testReply (some req) st =
        StepResult.ok st2
          [Msg.reply req.source
            ⟨(st.globalToLocalMat.grid.myRow : Int),
              (st.globalToLocalMat.grid.myCol : Int)⟩ payload] :=
  ⟨_, _, rfl⟩

/-- C5 counterexample: on a 2x1 process grid, an in-bounds put of a 2x1
region produces two data messages, each with a payload of 1 entry,
while each header's `height * width` is 2: a data message does not
carry `height * width` payload entries (it carries only the entries the
destination owns). -/
theorem updateMsg_payload_size_counterexample :
    dataMsgSizes
        (AxpyLocalToGlobal allDone (3 : Int) (onesLocal 2 1) 0 0
          (samplePutState ⟨2, 1, 0, 0⟩ 2 1)).sent = [(1, 2), (1, 2)] ∧
    (1 : Nat) ≠ 2 := by
  constructor
  · rfl
  · decide

/-- C6 counterexample: on a 2x2 grid with the caller at position (0,0)
and every slot owning one entry of the region, the data messages are
issued to ranks `[0, 1, 2, 3]` — position order (0,0), (1,0), (0,1),
(1,1), the row coordinate varying fastest — whereas visiting the slots
in row-major order of (row, col) would issue them to ranks
`[0, 2, 1, 3]`. -/
theorem put_walk_not_row_major_counterexample :
    dataDests
        (AxpyLocalToGlobal allDone (1 : Int) (onesLocal 2 2) 0 0
          (samplePutState ⟨2, 2, 0, 0⟩ 2 2)).sent = [0, 1, 2, 3] ∧
    (rowMajorSlots 2 2).map (fun rc => rc.1 + 2 * rc.2) = [0, 2, 1, 3] ∧
    ([0, 1, 2, 3] : List Nat) ≠ [0, 2, 1, 3] := by
  refine ⟨?_, ?_, ?_⟩
  · rfl
  · rfl
  · decide

/-- Helper: every peer the EOM sweep records satisfied the quiet
predicate. -/
theorem eomSweep_mem_quiet (quiet : Nat → Bool) :
    ∀ (l : List Bool) (i x : Nat), x ∈ (eomSweep quiet i l).2 →
      quiet x = true := by
  intro l
  induction l with
  | nil => intro i x hx; simp [eomSweep] at hx
  | cons b rest ih =>
    intro i x hx
    simp only [eomSweep] at hx
    by_cases hcond : (!b && quiet i) = true
    · rw [if_pos hcond] at hx
      simp only at hx
      rcases List.mem_cons.mp hx with h | h
      · subst h
        exact (Bool.and_eq_true _ _).mp hcond |>.2
      · exact ih _ _ h
    · rw [if_neg hcond] at hx
      simp only at hx
      exact ih _ _ hx

/-- Helper: every peer the EOM sweep records has its sent flag raised in
the swept flag list. -/
theorem eomSweep_mem_sent (quiet : Nat → Bool) :
    ∀ (l : List Bool) (i x : Nat), x ∈ (eomSweep quiet i l).2 →
      i ≤ x ∧ (eomSweep quiet i l).1.getD (x - i) true = true := by
  intro l
  induction l with
  | nil => intro i x hx; simp [eomSweep] at hx
  | cons b rest ih =>
    intro i x hx
    simp only [eomSweep] at hx ⊢
    by_cases hcond : (!b && quiet i) = true
    · rw [if_pos hcond] at hx ⊢
      simp only at hx ⊢
      rcases List.mem_cons.mp hx with h | h
      · subst h
        exact ⟨le_refl x, by simp⟩
      · obtain ⟨hle, hget⟩ := ih (i + 1) x h
        refine ⟨by omega, ?_⟩
        have hxi : x - i = (x - (i + 1)) + 1 := by omega
        rw [hxi, List.getD_cons_succ]
        exact hget
    · rw [if_neg hcond] at hx ⊢
      simp only at hx ⊢
      obtain ⟨hle, hget⟩ := ih (i + 1) x hx
      refine ⟨by omega, ?_⟩
      have hxi : x - i = (x - (i + 1)) + 1 := by omega
      rw [hxi, List.getD_cons_succ]
      exact hget

/-- C1: `HandleEoms` issues an End-Of-Message send to peer `x` only at a
moment when, after the `UpdateRequestStatuses` refresh it performs
first, every tracked in-flight-send flag for `x` is false in all three
channels — no data, request or reply send to `x` is still in flight at
the instant the EOM is issued — and it marks `x` as EOMed. -/
theorem eom_sent_only_when_no_inflight_sends {T : Type}
    (testData testRequest testReply : Nat → Nat → Bool)
    (incomingEom : Option Nat) (st : IfaceState T) (x : Nat)
    (h : Msg.eom x ∈ (HandleEoms testData testRequest testReply incomingEom st).2) :
    (∀ b ∈ (UpdateRequestStatuses testData testRequest testReply
        st).sendingData.getD x [], b = false) ∧
    (∀ b ∈ (UpdateRequestStatuses testData testRequest testReply
        st).sendingRequest.getD x [], b = false) ∧
    (∀ b ∈ (UpdateRequestStatuses testData testRequest testReply
        st).sendingReply.getD x [], b = false) ∧
    (HandleEoms testData testRequest testReply incomingEom
        st).1.sentEomTo.getD x true = true := by
  simp only [HandleEoms] at h ⊢
  have hx : x ∈ (eomSweep
      (peerQuiet (UpdateRequestStatuses testData testRequest testReply st)) 0
      (UpdateRequestStatuses testData testRequest testReply st).sentEomTo).2 := by
    rcases List.mem_map.mp h with ⟨a, ha, hax⟩
    cases hax
    exact ha
  have hquiet := eomSweep_mem_quiet _ _ _ _ hx
  have hsent := eomSweep_mem_sent _ _ _ _ hx
  simp only [peerQuiet, Bool.and_eq_true, Bool.not_eq_true'] at hquiet
  obtain ⟨⟨hd, hr⟩, hp⟩ := hquiet
  refine ⟨?_, ?_, ?_, ?_⟩
  · intro b hb
    have := List.any_eq_false.mp hd b hb
    simpa using this
  · intro b hb
    have := List.any_eq_false.mp hr b hb
    simpa using this
  · intro b hb
    have := List.any_eq_false.mp hp b hb
    simpa using this
  · cases incomingEom with
    | none => simpa using hsent.2
    | some source => simpa using hsent.2

/-- Witness for C1: a state with one just-completed data send to peer 0;
`HandleEoms` issues the EOM to peer 0 and the refreshed flags for peer 0
are indeed all false. -/
theorem eom_sent_only_when_no_inflight_sends_witness :
    (∀ b ∈ (UpdateRequestStatuses allDone allDone allDone
        eomWitnessState).sendingData.getD 0 [], b = false) ∧
    (∀ b ∈ (UpdateRequestStatuses allDone allDone allDone
        eomWitnessState).sendingRequest.getD 0 [], b = false) ∧
    (∀ b ∈ (UpdateRequestStatuses allDone allDone allDone
        eomWitnessState).sendingReply.getD 0 [], b = false) ∧
    (HandleEoms allDone allDone allDone none
        eomWitnessState).1.sentEomTo.getD 0 true = true :=
  eom_sent_only_when_no_inflight_sends allDone allDone allDone none
    eomWitnessState 0 (by decide)

/-- Helper: what a successful `readyScan` guarantees about the index it
returns and the two lists it hands back. -/
theorem readyScan_some (test : Nat → Bool) (sendSize : Nat) :
    ∀ (vs : List Nat) (sts : List Bool) (i idx : Nat) (vs2 : List Nat)
      (sts2 : List Bool),
      readyScan test sendSize i vs sts = some (idx, vs2, sts2) →
      i ≤ idx ∧ idx < i + vs.length ∧ vs2.length = vs.length ∧
      sts2.length = sts.length ∧ vs2.getD (idx - i) 0 = sendSize ∧
      sts2.getD (idx - i) false = true ∧
      (sts.getD (idx - i) false = false ∨ test idx = true) := by
  intro vs
  induction vs with
  | nil => intro sts i idx vs2 sts2 h; cases sts <;> simp [readyScan] at h
  | cons v vrest ih =>
    intro sts i idx vs2 sts2 h
    cases sts with
    | nil => simp [readyScan] at h
    | cons b brest =>
      simp only [readyScan] at h
      by_cases hcond : (b && !test i) = true
      · rw [if_pos hcond] at h
        cases hrec : readyScan test sendSize (i + 1) vrest brest with
        | none => rw [hrec] at h; simp at h
        | some tri =>
          obtain ⟨idx1, vs1, sts1⟩ := tri
          rw [hrec] at h
          simp only [Option.some.injEq, Prod.mk.injEq] at h
          obtain ⟨hidx, hvs, hsts⟩ := h
          subst hidx hvs hsts
          obtain ⟨h1, h2, h3, h4, h5, h6, h7⟩ := ih brest (i + 1) idx1 vs1 sts1 hrec
          have hshift : idx1 - i = (idx1 - (i + 1)) + 1 := by omega
          refine ⟨by omega, by simp; omega, by simp [h3], by simp [h4], ?_, ?_, ?_⟩
          · rw [hshift, List.getD_cons_succ]; exact h5
          · rw [hshift, List.getD_cons_succ]; exact h6
          · rw [hshift, List.getD_cons_succ]; exact h7
      · rw [if_neg hcond] at h
        simp only [Option.some.injEq, Prod.mk.injEq] at h
        obtain ⟨hidx, hvs, hsts⟩ := h
        subst hidx hvs hsts
        have hbi : b = false ∨ test i = true := by
          cases b with
          | false => exact Or.inl rfl
          | true =>
            right
            simpa using hcond
        refine ⟨le_refl i, by simp, by simp, by simp, by simp, by simp, ?_⟩
        simpa using hbi

/-- Helper: a `readyScan` that found no free slot visited slots whose
status flags were all raised and whose completion tests all failed. -/
theorem readyScan_none (test : Nat → Bool) (sendSize : Nat) :
    ∀ (vs : List Nat) (sts : List Bool) (i : Nat),
      sts.length = vs.length →
      readyScan test sendSize i vs sts = none →
      ∀ k < vs.length, sts.getD k false = true ∧ test (i + k) = false := by
  intro vs
  induction vs with
  | nil => intro sts i _ _ k hk; simp at hk
  | cons v vrest ih =>
    intro sts i hlen h k hk
    cases sts with
    | nil => simp at hlen
    | cons b brest =>
      simp only [readyScan] at h
      by_cases hcond : (b && !test i) = true
      · rw [if_pos hcond] at h
        cases hrec : readyScan test sendSize (i + 1) vrest brest with
        | some tri => rw [hrec] at h; obtain ⟨_, _, _⟩ := tri; simp at h
        | none =>
          obtain ⟨hb, ht⟩ := (Bool.and_eq_true _ _).mp hcond
          have hlen2 : brest.length = vrest.length := by simpa using hlen
          cases k with
          | zero =>
            refine ⟨by simpa using hb, ?_⟩
            simpa using ht
          | succ k2 =>
            have hk2 : k2 < vrest.length := by simpa using hk
            obtain ⟨h1, h2⟩ := ih brest (i + 1) hlen2 hrec k2 hk2
            refine ⟨by simpa using h1, ?_⟩
            have : i + (k2 + 1) = (i + 1) + k2 := by omega
            rw [this]
            exact h2
      · rw [if_neg hcond] at h
        simp at h

/-- C7: for equal-length vector arguments, `ReadyForSend` returns a
valid slot index whose buffer now has the requested size and whose
status flag is raised; a pre-existing slot is returned only if its
prior send had completed (its flag was already down, or the completion
test reported it finished); a new slot is appended — growing each of
the three vectors by exactly one — only if every pre-existing slot was
still in flight; and the three vectors have equal length on return. -/
theorem readyForSend_spec (test : Nat → Bool) (sendSize : Nat)
    (sendVectors : List Nat) (requests : List Unit)
    (requestStatuses : List Bool)
    (hlen1 : requests.length = sendVectors.length)
    (hlen2 : requestStatuses.length = sendVectors.length) :
    (ReadyForSend test sendSize sendVectors requests requestStatuses).index <
      (ReadyForSend test sendSize sendVectors requests
        requestStatuses).sendVectors.length ∧
    (ReadyForSend test sendSize sendVectors requests
        requestStatuses).sendVectors.getD
      (ReadyForSend test sendSize sendVectors requests requestStatuses).index
      0 = sendSize ∧
    (ReadyForSend test sendSize sendVectors requests
        requestStatuses).requestStatuses.getD
      (ReadyForSend test sendSize sendVectors requests requestStatuses).index
      false = true ∧
    ((ReadyForSend test sendSize sendVectors requests requestStatuses).index <
        sendVectors.length →
      requestStatuses.getD
        (ReadyForSend test sendSize sendVectors requests
          requestStatuses).index false = false ∨
      test (ReadyForSend test sendSize sendVectors requests
        requestStatuses).index = true) ∧
    ((ReadyForSend test sendSize sendVectors requests requestStatuses).index =
        sendVectors.length →
      (ReadyForSend test sendSize sendVectors requests
          requestStatuses).sendVectors.length = sendVectors.length + 1 ∧
      ∀ k < sendVectors.length,
        requestStatuses.getD k false = true ∧ test k = false) ∧
    (ReadyForSend test sendSize sendVectors requests
        requestStatuses).requests.length =
      (ReadyForSend test sendSize sendVectors requests
        requestStatuses).sendVectors.length ∧
    (ReadyForSend test sendSize sendVectors requests
        requestStatuses).requestStatuses.length =
      (ReadyForSend test sendSize sendVectors requests
        requestStatuses).sendVectors.length := by
  cases hscan : readyScan test sendSize 0 sendVectors requestStatuses with
  | some tri =>
    obtain ⟨idx, vs2, sts2⟩ := tri
    have hres : ReadyForSend test sendSize sendVectors requests
        requestStatuses = ⟨idx, vs2, requests, sts2⟩ := by
      unfold ReadyForSend; rw [hscan]
    obtain ⟨h1, h2, h3, h4, h5, h6, h7⟩ :=
      readyScan_some test sendSize sendVectors requestStatuses 0 idx vs2 sts2
        hscan
    simp only [Nat.sub_zero] at h5 h6 h7
    simp only [Nat.zero_add] at h2
    rw [hres]
    dsimp only
    refine ⟨by omega, h5, h6, fun _ => h7,
      fun hidx => absurd hidx (by omega), ?_, ?_⟩
    · omega
    · omega
  | none =>
    have hres : ReadyForSend test sendSize sendVectors requests
        requestStatuses =
        ⟨sendVectors.length, sendVectors ++ [sendSize], requests ++ [()],
          requestStatuses ++ [true]⟩ := by
      unfold ReadyForSend; rw [hscan]
    have hall := readyScan_none test sendSize sendVectors requestStatuses 0
      hlen2 hscan
    rw [hres]
    dsimp only
    refine ⟨by simp, ?_, ?_, fun hidx => absurd hidx (by omega),
      fun _ => ⟨by simp, fun k hk => by simpa using hall k hk⟩, ?_, ?_⟩
    · rw [List.getD_eq_getElem?_getD, List.getElem?_append_right (le_refl _)]
      simp
    · rw [List.getD_eq_getElem?_getD, ← hlen2,
        List.getElem?_append_right (le_refl _)]
      simp
    · simp [hlen1]
    · simp [hlen2]

/-- Witness for C7 on a concrete two-slot channel whose second send has
completed. -/
theorem readyForSend_spec_witness :
    (ReadyForSend (fun i => i == 1) 7 [3, 4] [(), ()] [true, true]).index <
      (ReadyForSend (fun i => i == 1) 7 [3, 4] [(), ()]
        [true, true]).sendVectors.length ∧
    (ReadyForSend (fun i => i == 1) 7 [3, 4] [(), ()]
        [true, true]).sendVectors.getD
      (ReadyForSend (fun i => i == 1) 7 [3, 4] [(), ()] [true, true]).index
      0 = 7 ∧
    (ReadyForSend (fun i => i == 1) 7 [3, 4] [(), ()]
        [true, true]).requestStatuses.getD
      (ReadyForSend (fun i => i == 1) 7 [3, 4] [(), ()] [true, true]).index
      false = true ∧
    ((ReadyForSend (fun i => i == 1) 7 [3, 4] [(), ()] [true, true]).index <
        ([3, 4] : List Nat).length →
      ([true, true] : List Bool).getD
        (ReadyForSend (fun i => i == 1) 7 [3, 4] [(), ()]
          [true, true]).index false = false ∨
      ((ReadyForSend (fun i => i == 1) 7 [3, 4] [(), ()]
          [true, true]).index == 1) = true) ∧
    ((ReadyForSend (fun i => i == 1) 7 [3, 4] [(), ()] [true, true]).index =
        ([3, 4] : List Nat).length →
      (ReadyForSend (fun i => i == 1) 7 [3, 4] [(), ()]
          [true, true]).sendVectors.length = ([3, 4] : List Nat).length + 1 ∧
      ∀ k < ([3, 4] : List Nat).length,
        ([true, true] : List Bool).getD k false = true ∧ (k == 1) = false) ∧
    (ReadyForSend (fun i => i == 1) 7 [3, 4] [(), ()]
        [true, true]).requests.length =
      (ReadyForSend (fun i => i == 1) 7 [3, 4] [(), ()]
        [true, true]).sendVectors.length ∧
    (ReadyForSend (fun i => i == 1) 7 [3, 4] [(), ()]
        [true, true]).requestStatuses.length =
      (ReadyForSend (fun i => i == 1) 7 [3, 4] [(), ()]
        [true, true]).sendVectors.length :=
  readyForSend_spec (fun i => i == 1) 7 [3, 4] [(), ()] [true, true]
    (by decide) (by decide)

/-- Helper: the destination walk of the put path touches only channel
state, never either attached matrix. -/
theorem putSteps_preserves_mats {T : Type} (testData : Nat → Nat → Bool)
    (X : LocalMat T) (header : LocalToGlobalHeader T) (r c : Nat)
    (cA rA : Int) :
    ∀ (steps row col : Nat) (st : IfaceState T) (acc : List (Msg T)),
      (putSteps testData X header r c cA rA steps row col st
          acc).1.localToGlobalMat = st.localToGlobalMat ∧
      (putSteps testData X header r c cA rA steps row col st
          acc).1.globalToLocalMat = st.globalToLocalMat := by
  intro steps
  induction steps with
  | zero => intro row col st acc; exact ⟨rfl, rfl⟩
  | succ n ih =>
    intro row col st acc
    simp only [putSteps]
    split
    · exact ⟨(ih _ _ _ _).1, (ih _ _ _ _).2⟩
    · exact ⟨(ih _ _ _ _).1, (ih _ _ _ _).2⟩

/-- Helper: the request broadcast touches only channel state. -/
theorem sendRequestsAux_preserves_mats {T : Type}
    (testRequest : Nat → Nat → Bool) (header : GlobalToLocalRequestHeader) :
    ∀ (ranks : List Nat) (st : IfaceState T) (acc : List (Msg T)),
      (sendRequestsAux testRequest header ranks st
          acc).1.localToGlobalMat = st.localToGlobalMat ∧
      (sendRequestsAux testRequest header ranks st
          acc).1.globalToLocalMat = st.globalToLocalMat := by
  intro ranks
  induction ranks with
  | nil => intro st acc; exact ⟨rfl, rfl⟩
  | cons rank rest ih =>
    intro st acc
    simp only [sendRequestsAux]
    exact ⟨(ih _ _).1, (ih _ _).2⟩

/-- Helper: servicing a read request touches only the reply channel of
the requester, never either attached matrix. -/
theorem handleGlobalToLocalRequest_preserves_mats {T : Type}
    (testReply : Nat → Nat → Bool) (incoming : Option IncomingRequest)
    (st : IfaceState T) :
    (HandleGlobalToLocalRequest testReply incoming
        st).state.localToGlobalMat = st.localToGlobalMat ∧
    (HandleGlobalToLocalRequest testReply incoming
        st).state.globalToLocalMat = st.globalToLocalMat := by
  cases incoming with
  | none => exact ⟨rfl, rfl⟩
  | some req => exact ⟨rfl, rfl⟩

/-- Helper: the get-path wait loop writes the caller buffer and channel
state, never either attached matrix. -/
theorem gtlLoop_preserves_mats {T : Type} [Add T] [Mul T] [Zero T]
    (testReply : Nat → Nat → Bool) (alpha : T) (X : DistMat T)
    (i j height width : Int) (p : Nat) :
    ∀ (events : List (GTLEvent T)) (numReplies : Nat) (st : IfaceState T)
      (Y : LocalMat T) (acc : List (Msg T)),
      (gtlLoop testReply alpha X i j height width p events numReplies st Y
          acc).state.localToGlobalMat = st.localToGlobalMat ∧
      (gtlLoop testReply alpha X i j height width p events numReplies st Y
          acc).state.globalToLocalMat = st.globalToLocalMat := by
  intro events
  induction events with
  | nil =>
    intro numReplies st Y acc
    simp only [gtlLoop]
    split
    · exact ⟨rfl, rfl⟩
    · exact ⟨rfl, rfl⟩
  | cons e rest ih =>
    intro numReplies st Y acc
    simp only [gtlLoop]
    split
    · exact ⟨rfl, rfl⟩
    · have hpres :=
        handleGlobalToLocalRequest_preserves_mats testReply e.incomingRequest st
      cases hreq : HandleGlobalToLocalRequest testReply e.incomingRequest st with
      | err m st2 =>
        rw [hreq] at hpres
        exact ⟨hpres.1, hpres.2⟩
      | ok st2 ms =>
        rw [hreq] at hpres
        cases e.incomingReply with
        | none =>
          refine ⟨?_, ?_⟩
          · rw [(ih _ _ _ _).1]; exact hpres.1
          · rw [(ih _ _ _ _).2]; exact hpres.2
        | some rep =>
          refine ⟨?_, ?_⟩
          · rw [(ih _ _ _ _).1]; exact hpres.1
          · rw [(ih _ _ _ _).2]; exact hpres.2

/-- C8: while attached for put, `AxpyLocalToGlobal` never writes the
attached target matrix (it only reads it and writes per-destination
send buffers); and among the embedded interface operations —
`AxpyLocalToGlobal`, `AxpyGlobalToLocal`, `HandleGlobalToLocalRequest`,
`HandleEoms` — only `HandleLocalToGlobalData` mutates the attached
target matrix, which it demonstrably does on a concrete update
message while itself leaving the get-attachment matrix untouched. -/
theorem target_matrix_mutation_frame {T : Type} [Add T] [Mul T] [Zero T] :
    (∀ (testData : Nat → Nat → Bool) (alpha : T) (X : LocalMat T)
      (i j : Int) (st : IfaceState T),
      (AxpyLocalToGlobal testData alpha X i j
          st).state.localToGlobalMat = st.localToGlobalMat ∧
      (AxpyLocalToGlobal testData alpha X i j
          st).state.globalToLocalMat = st.globalToLocalMat) ∧
    (∀ (testRequest testReply : Nat → Nat → Bool) (alpha : T)
      (Y : LocalMat T) (i j : Int) (events : List (GTLEvent T))
      (st : IfaceState T),
      (AxpyGlobalToLocal testRequest testReply alpha Y i j events
          st).state.localToGlobalMat = st.localToGlobalMat ∧
      (AxpyGlobalToLocal testRequest testReply alpha Y i j events
          st).state.globalToLocalMat = st.globalToLocalMat) ∧
    (∀ (testReply : Nat → Nat → Bool) (incoming : Option IncomingRequest)
      (st : IfaceState T),
      (HandleGlobalToLocalRequest testReply incoming
          st).state.localToGlobalMat = st.localToGlobalMat ∧
      (HandleGlobalToLocalRequest testReply incoming
          st).state.globalToLocalMat = st.globalToLocalMat) ∧
    (∀ (testData testRequest testReply : Nat → Nat → Bool)
      (incomingEom : Option Nat) (st : IfaceState T),
      (HandleEoms testData testRequest testReply incomingEom
          st).1.localToGlobalMat = st.localToGlobalMat ∧
      (HandleEoms testData testRequest testReply incomingEom
          st).1.globalToLocalMat = st.globalToLocalMat) ∧
    (∀ (incoming : Option (IncomingData T)) (st : IfaceState T),
      (HandleLocalToGlobalData incoming
          st).state.globalToLocalMat = st.globalToLocalMat) ∧
    (HandleLocalToGlobalData
        (some ⟨0, ⟨0, 0, 1, 1, (1 : Int)⟩, [5]⟩)
        (samplePutState ⟨1, 1, 0, 0⟩ 1 1)).state.localToGlobalMat.localEntry
        0 0 ≠
      (samplePutState ⟨1, 1, 0, 0⟩ 1 1).localToGlobalMat.localEntry 0 0 := by
  refine ⟨?_, ?_, ?_, ?_, ?_, ?_⟩
  · intro testData alpha X i j st
    simp only [AxpyLocalToGlobal]
    split
    · exact ⟨rfl, rfl⟩
    · split
      · exact ⟨rfl, rfl⟩
      · exact ⟨(putSteps_preserves_mats _ _ _ _ _ _ _ _ _ _ _ _).1,
          (putSteps_preserves_mats _ _ _ _ _ _ _ _ _ _ _ _).2⟩
  · intro testRequest testReply alpha Y i j events st
    simp only [AxpyGlobalToLocal]
    split
    · exact ⟨rfl, rfl⟩
    · refine ⟨?_, ?_⟩
      · rw [(gtlLoop_preserves_mats _ _ _ _ _ _ _ _ _ _ _ _ _).1]
        exact (sendRequestsAux_preserves_mats _ _ _ _ _).1
      · rw [(gtlLoop_preserves_mats _ _ _ _ _ _ _ _ _ _ _ _ _).2]
        exact (sendRequestsAux_preserves_mats _ _ _ _ _).2
  · exact handleGlobalToLocalRequest_preserves_mats
  · intro testData testRequest testReply incomingEom st
    cases incomingEom with
    | none => exact ⟨rfl, rfl⟩
    | some source => exact ⟨rfl, rfl⟩
  · intro incoming st
    cases incoming with
    | none => rfl
    | some msg =>
      simp only [HandleLocalToGlobalData]
      split
      · rfl
      · split
        · rfl
        · split
          · rfl
          · rfl
  · decide

/-- Helper: one step of the destination walk advances the column-major
linearisation `row + r * col` by one, modulo `r * c`. -/
theorem walkIdx_succ (r c row col : Nat) (hr : 0 < r) (hrow : row < r)
    (hcol : col < c) :
    (row + 1) % r + r * (if (row + 1) % r = 0 then (col + 1) % c else col) =
      (row + r * col + 1) % (r * c) := by
  by_cases h1 : row + 1 < r
  · rw [Nat.mod_eq_of_lt h1, if_neg (by omega)]
    have h2 : r * (col + 1) = r * col + r := by ring
    have h3 : r * (col + 1) ≤ r * c := Nat.mul_le_mul_left r hcol
    rw [Nat.mod_eq_of_lt (by omega)]
    omega
  · have hrow1 : row + 1 = r := by omega
    rw [hrow1, Nat.mod_self, if_pos rfl]
    by_cases h2 : col + 1 < c
    · rw [Nat.mod_eq_of_lt h2]
      have h4 : r * (col + 1) = r * col + r := by ring
      have heq : row + r * col + 1 = r * (col + 1) := by omega
      rw [heq, Nat.mod_eq_of_lt (Nat.mul_lt_mul_of_pos_left h2 hr)]
      omega
    · have hcol1 : col + 1 = c := by omega
      rw [hcol1, Nat.mod_self, Nat.mul_zero]
      have h5 : r * c = r * col + r := by rw [← hcol1]; ring
      have heq : row + r * col + 1 = r * c := by omega
      rw [heq, Nat.mod_self]

/-- Helper: every position the destination walk visits is a valid grid
position, provided the start position is. -/
theorem putWalk_valid (r c : Nat) (hr : 0 < r) (hc : 0 < c) :
    ∀ (steps row col : Nat), row < r → col < c →
      ∀ rc ∈ putWalk r c steps row col, rc.1 < r ∧ rc.2 < c := by
  intro steps
  induction steps with
  | zero => intro row col _ _ rc hrc; simp [putWalk] at hrc
  | succ n ih =>
    intro row col hrow hcol rc hrc
    simp only [putWalk, List.mem_cons] at hrc
    rcases hrc with h | h
    · subst h; exact ⟨hrow, hcol⟩
    · refine ih _ _ (Nat.mod_lt _ hr) ?_ _ h
      split
      · exact Nat.mod_lt _ hc
      · exact hcol

/-- Helper: the column-major linearisations of the walk positions are
the consecutive residues modulo `r * c` starting at the linearisation
of the start position. -/
theorem putWalk_map_idx (r c : Nat) (hr : 0 < r) (hc : 0 < c) :
    ∀ (steps row col : Nat), row < r → col < c →
      (putWalk r c steps row col).map (fun rc => rc.1 + r * rc.2) =
        (List.range steps).map (fun k => (row + r * col + k) % (r * c)) := by
  intro steps
  induction steps with
  | zero => intro row col _ _; rfl
  | succ n ih =>
    intro row col hrow hcol
    have hrow2 : (row + 1) % r < r := Nat.mod_lt _ hr
    have hcol2 : (if (row + 1) % r = 0 then (col + 1) % c else col) < c := by
      split
      · exact Nat.mod_lt _ hc
      · exact hcol
    have hlt0 : row + r * col < r * c := by
      have h2 : r * (col + 1) = r * col + r := by ring
      have h3 : r * (col + 1) ≤ r * c := Nat.mul_le_mul_left r hcol
      omega
    simp only [putWalk, List.map_cons]
    rw [List.range_succ_eq_map, List.map_cons, List.map_map,
      ih _ _ hrow2 hcol2]
    refine List.cons_eq_cons.mpr ⟨?_, ?_⟩
    · rw [Nat.add_zero, Nat.mod_eq_of_lt hlt0]
    · apply List.map_congr_left
      intro k _
      simp only [Function.comp_apply]
      rw [walkIdx_succ r c row col hr hrow hcol, Nat.mod_add_mod]
      congr 1
      omega

/-- Helper: every residue below `p` is hit by some shift below `p`. -/
theorem mod_shift_surj (p a d : Nat) (ha : a < p) (hd : d < p) :
    ∃ k, k < p ∧ (a + k) % p = d := by
  by_cases h : a ≤ d
  · refine ⟨d - a, by omega, ?_⟩
    have heq : a + (d - a) = d := by omega
    rw [heq]
    exact Nat.mod_eq_of_lt hd
  · refine ⟨d + p - a, by omega, ?_⟩
    have heq : a + (d + p - a) = d + p := by omega
    rw [heq, Nat.add_mod_right]
    exact Nat.mod_eq_of_lt hd

/-- Helper: the consecutive residues modulo `p` starting anywhere are
pairwise distinct. -/
theorem rangeShiftMod_nodup (p a : Nat) :
    ((List.range p).map (fun k => (a + k) % p)).Nodup := by
  rcases Nat.eq_zero_or_pos p with hp | hp
  · subst hp; simp
  apply List.Nodup.map_on _ (List.nodup_range p)
  intro x hx y hy hxy
  rw [List.mem_range] at hx hy
  have hmod : x % p = y % p := Nat.ModEq.add_left_cancel' a hxy
  rw [Nat.mod_eq_of_lt hx, Nat.mod_eq_of_lt hy] at hmod
  exact hmod

/-- Helper: the sends the put walk issues are exactly the per-position
messages of the visited positions, in visit order. -/
theorem putSteps_sent {T : Type} (testData : Nat → Nat → Bool)
    (X : LocalMat T) (header : LocalToGlobalHeader T) (r c : Nat)
    (cA rA : Int) :
    ∀ (steps row col : Nat) (st : IfaceState T) (acc : List (Msg T)),
      (putSteps testData X header r c cA rA steps row col st acc).2 =
        acc ++ (putWalk r c steps row col).filterMap
          (putMsgAt X header r c cA rA) := by
  intro steps
  induction steps with
  | zero => intro row col st acc; simp [putSteps, putWalk]
  | succ n ih =>
    intro row col st acc
    simp only [putSteps, putWalk]
    by_cases h :
        LocalLength header.height (Shift (row : Int) cA (r : Int)) (r : Int) *
          LocalLength header.width (Shift (col : Int) rA (c : Int)) (c : Int) ≠
          0
    · rw [if_pos h, ih]
      have hmsg : putMsgAt X header r c cA rA (row, col) =
          some (Msg.data (row + r * col) header
            (packRegion
              (fun s t =>
                X.entry
                  (Shift (row : Int) cA (r : Int) + (s : Int) * (r : Int))
                  (Shift (col : Int) rA (c : Int) + (t : Int) * (c : Int)))
              (LocalLength header.height (Shift (row : Int) cA (r : Int))
                (r : Int))
              (LocalLength header.width (Shift (col : Int) rA (c : Int))
                (c : Int)))) := by
        simp only [putMsgAt]
        rw [if_pos h]
      rw [List.filterMap_cons_some hmsg]
      simp
    · rw [if_neg h, ih]
      have hmsg : putMsgAt X header r c cA rA (row, col) = none := by
        simp only [putMsgAt]
        rw [if_neg h]
      rw [List.filterMap_cons_none hmsg]

/-- Helper: the data destinations of the per-position messages are the
linearised ranks of the owning positions, in order. -/
theorem dataDests_filterMap_putMsgAt {T : Type} (X : LocalMat T)
    (header : LocalToGlobalHeader T) (r c : Nat) (cA rA : Int) :
    ∀ l : List (Nat × Nat),
      dataDests (l.filterMap (putMsgAt X header r c cA rA)) =
        (l.filter
          (fun rc =>
            decide (LocalLength header.height
                (Shift (rc.1 : Int) cA (r : Int)) (r : Int) *
              LocalLength header.width (Shift (rc.2 : Int) rA (c : Int))
                (c : Int) ≠ 0))).map
          (fun rc => rc.1 + r * rc.2) := by
  intro l
  induction l with
  | nil => rfl
  | cons rc rest ih =>
    by_cases h :
        LocalLength header.height (Shift (rc.1 : Int) cA (r : Int)) (r : Int) *
          LocalLength header.width (Shift (rc.2 : Int) rA (c : Int))
            (c : Int) ≠ 0
    · have hmsg : ∃ pl, putMsgAt X header r c cA rA rc =
          some (Msg.data (rc.1 + r * rc.2) header pl) := by
        simp only [putMsgAt]
        rw [if_pos h]
        exact ⟨_, rfl⟩
      obtain ⟨pl, hmsg⟩ := hmsg
      rw [List.filterMap_cons_some hmsg,
        List.filter_cons_of_pos (by simpa using h), List.map_cons]
      simp only [dataDests]
      rw [ih]
    · have hmsg : putMsgAt X header r c cA rA rc = none := by
        simp only [putMsgAt]
        rw [if_neg h]
      rw [List.filterMap_cons_none hmsg,
        List.filter_cons_of_neg (by simpa using h)]
      exact ih

/-- Helper: length of a rectangular double-loop concatenation. -/
theorem rangeProd_length {β : Type} (g : Nat → Nat → β) (n m : Nat) :
    ((List.range n).flatMap (fun t => (List.range m).map (g t))).length =
      n * m := by
  induction n with
  | zero => simp
  | succ k ih =>
    rw [List.range_succ, List.flatMap_append]
    simp only [List.length_append, ih]
    simp [Nat.succ_mul]

/-- Helper: indexing a rectangular double-loop concatenation at
`t * m + s` lands on element `(t, s)`. -/
theorem rangeProd_getElem {β : Type} (g : Nat → Nat → β) (n m t s : Nat)
    (ht : t < n) (hs : s < m) :
    ((List.range n).flatMap (fun t => (List.range m).map (g t)))[t * m + s]? =
      some (g t s) := by
  induction n with
  | zero => omega
  | succ k ih =>
    rw [List.range_succ, List.flatMap_append, List.getElem?_append]
    by_cases htk : t < k
    · rw [if_pos (by rw [rangeProd_length]; exact
        calc t * m + s < t * m + m := by omega
          _ = (t + 1) * m := by ring
          _ ≤ k * m := Nat.mul_le_mul_right m (by omega))]
      exact ih htk
    · have htkeq : t = k := by omega
      subst htkeq
      rw [if_neg (by rw [rangeProd_length]; omega), rangeProd_length]
      have hidx : t * m + s - t * m = s := by omega
      rw [hidx]
      simp only [List.flatMap_cons, List.flatMap_nil, List.append_nil]
      rw [List.getElem?_map, List.getElem?_range hs]
      rfl

/-- Helper: length of a packed region. -/
theorem packRegion_length {T : Type} (entryAt : Nat → Nat → T)
    (lh lw : Int) :
    (packRegion entryAt lh lw).length = lw.toNat * lh.toNat :=
  rangeProd_length _ _ _

/-- Helper: the packed region holds entry `(s, t)` at position
`t * localHeight + s`: column-major order relative to the region. -/
theorem packRegion_getElem {T : Type} (entryAt : Nat → Nat → T)
    (lh lw : Int) (t s : Nat) (ht : t < lw.toNat) (hs : s < lh.toNat) :
    (packRegion entryAt lh lw)[t * lh.toNat + s]? = some (entryAt s t) :=
  rangeProd_getElem (fun t s => entryAt s t) _ _ _ _ ht hs

/-- Helper: the sends of an in-bounds put are the per-position messages
of the full `p`-step walk from the caller's own grid position. -/
theorem axpyLocalToGlobal_sent_eq {T : Type} (testData : Nat → Nat → Bool)
    (alpha : T) (X : LocalMat T) (i j : Int) (st : IfaceState T)
    (hij : ¬(i < 0 ∨ j < 0))
    (hfit : ¬(i + X.height > st.localToGlobalMat.height ∨
      j + X.width > st.localToGlobalMat.width)) :
    (AxpyLocalToGlobal testData alpha X i j st).sent =
      (putWalk st.localToGlobalMat.grid.r st.localToGlobalMat.grid.c
        (st.localToGlobalMat.grid.r * st.localToGlobalMat.grid.c)
        st.localToGlobalMat.grid.myRow
        st.localToGlobalMat.grid.myCol).filterMap
        (putMsgAt X ⟨i, j, X.height, X.width, alpha⟩
          st.localToGlobalMat.grid.r st.localToGlobalMat.grid.c
          (cppMod (st.localToGlobalMat.colAlignment + i)
            (st.localToGlobalMat.grid.r : Int))
          (cppMod (st.localToGlobalMat.rowAlignment + j)
            (st.localToGlobalMat.grid.c : Int))) := by
  simp only [AxpyLocalToGlobal]
  rw [if_neg hij, if_neg hfit]
  simp only [StepResult.sent]
  rw [putSteps_sent]
  simp

/-- C6 (amended): for an in-bounds put with the caller at a valid grid
position, the data-message destinations are the `p` grid ranks taken in
the walk order actually used by the code — starting at the caller's own
position with the row coordinate varying fastest, i.e. the column-major
linearisation `row + r * col` advancing by one modulo `p` — restricted
to the slots whose computed `numEntries` is nonzero; the destinations
are pairwise distinct; and a rank receives exactly one data message
precisely when it is a valid rank owning at least one entry of the
region. (The claimed row-major order of `(row, col)` is refuted by the
counterexample.) -/
theorem axpyLocalToGlobal_walk_and_messages {T : Type}
    (testData : Nat → Nat → Bool) (alpha : T) (X : LocalMat T) (i j : Int)
    (st : IfaceState T)
    (hr : 0 < st.localToGlobalMat.grid.r)
    (hc : 0 < st.localToGlobalMat.grid.c)
    (hrow : st.localToGlobalMat.grid.myRow < st.localToGlobalMat.grid.r)
    (hcol : st.localToGlobalMat.grid.myCol < st.localToGlobalMat.grid.c)
    (hij : ¬(i < 0 ∨ j < 0))
    (hfit : ¬(i + X.height > st.localToGlobalMat.height ∨
      j + X.width > st.localToGlobalMat.width)) :
    dataDests (AxpyLocalToGlobal testData alpha X i j st).sent =
      ((List.range
        (st.localToGlobalMat.grid.r * st.localToGlobalMat.grid.c)).map
        (fun k =>
          (st.localToGlobalMat.grid.myRow +
              st.localToGlobalMat.grid.r * st.localToGlobalMat.grid.myCol +
              k) %
            (st.localToGlobalMat.grid.r *
              st.localToGlobalMat.grid.c))).filter
        (fun d =>
          decide
            (ownedEntriesAt st.localToGlobalMat X.height X.width i j d ≠
              0)) ∧
    (dataDests (AxpyLocalToGlobal testData alpha X i j st).sent).Nodup ∧
    ∀ d,
      d ∈ dataDests (AxpyLocalToGlobal testData alpha X i j st).sent ↔
        d < st.localToGlobalMat.grid.r * st.localToGlobalMat.grid.c ∧
          ownedEntriesAt st.localToGlobalMat X.height X.width i j d ≠ 0 := by
  have hp : 0 < st.localToGlobalMat.grid.r * st.localToGlobalMat.grid.c :=
    Nat.mul_pos hr hc
  have hidx0 : st.localToGlobalMat.grid.myRow +
      st.localToGlobalMat.grid.r * st.localToGlobalMat.grid.myCol <
      st.localToGlobalMat.grid.r * st.localToGlobalMat.grid.c := by
    have h2 : st.localToGlobalMat.grid.r * (st.localToGlobalMat.grid.myCol + 1) =
        st.localToGlobalMat.grid.r * st.localToGlobalMat.grid.myCol +
          st.localToGlobalMat.grid.r := by ring
    have h3 : st.localToGlobalMat.grid.r * (st.localToGlobalMat.grid.myCol + 1) ≤
        st.localToGlobalMat.grid.r * st.localToGlobalMat.grid.c :=
      Nat.mul_le_mul_left _ hcol
    omega
  have hmain :
      dataDests (AxpyLocalToGlobal testData alpha X i j st).sent =
        ((List.range
          (st.localToGlobalMat.grid.r * st.localToGlobalMat.grid.c)).map
          (fun k =>
            (st.localToGlobalMat.grid.myRow +
                st.localToGlobalMat.grid.r * st.localToGlobalMat.grid.myCol +
                k) %
              (st.localToGlobalMat.grid.r *
                st.localToGlobalMat.grid.c))).filter
          (fun d =>
            decide
              (ownedEntriesAt st.localToGlobalMat X.height X.width i j d ≠
                0)) := by
    rw [axpyLocalToGlobal_sent_eq testData alpha X i j st hij hfit,
      dataDests_filterMap_putMsgAt]
    rw [← putWalk_map_idx _ _ hr hc _ _ _ hrow hcol, List.filter_map]
    apply congrArg (List.map _)
    apply List.filter_congr
    intro rc hrc
    obtain ⟨h1, h2⟩ := putWalk_valid _ _ hr hc _ _ _ hrow hcol rc hrc
    have hm : (rc.1 + st.localToGlobalMat.grid.r * rc.2) %
        st.localToGlobalMat.grid.r = rc.1 := by
      rw [Nat.add_mul_mod_self_left, Nat.mod_eq_of_lt h1]
    have hd2 : (rc.1 + st.localToGlobalMat.grid.r * rc.2) /
        st.localToGlobalMat.grid.r = rc.2 := by
      rw [Nat.add_mul_div_left _ _ hr, Nat.div_eq_of_lt h1]
      omega
    simp only [ownedEntriesAt, Function.comp_apply, hm, hd2]
  refine ⟨hmain, ?_, ?_⟩
  · rw [hmain]
    exact List.Nodup.filter _ (rangeShiftMod_nodup _ _)
  · intro d
    rw [hmain, List.mem_filter]
    have hmem : d ∈ (List.range
        (st.localToGlobalMat.grid.r * st.localToGlobalMat.grid.c)).map
        (fun k =>
          (st.localToGlobalMat.grid.myRow +
              st.localToGlobalMat.grid.r * st.localToGlobalMat.grid.myCol +
              k) %
            (st.localToGlobalMat.grid.r * st.localToGlobalMat.grid.c)) ↔
        d < st.localToGlobalMat.grid.r * st.localToGlobalMat.grid.c := by
      constructor
      · intro hd
        rcases List.mem_map.mp hd with ⟨k, _, rfl⟩
        exact Nat.mod_lt _ hp
      · intro hd
        obtain ⟨k, hk, hkeq⟩ := mod_shift_surj _ _ d hidx0 hd
        exact List.mem_map.mpr ⟨k, List.mem_range.mpr hk, hkeq⟩
    rw [hmem]
    simp

/-- Witness for the amended C6: the destination list of a concrete
in-bounds put on a 2x2 grid is duplicate-free. -/
theorem axpyLocalToGlobal_walk_and_messages_witness :
    (dataDests (AxpyLocalToGlobal allDone (1 : Int) (onesLocal 2 2) 0 0
        (samplePutState ⟨2, 2, 0, 0⟩ 2 2)).sent).Nodup :=
  (axpyLocalToGlobal_walk_and_messages allDone 1 (onesLocal 2 2) 0 0
      (samplePutState ⟨2, 2, 0, 0⟩ 2 2) (by decide) (by decide) (by decide)
      (by decide) (by decide) (by decide)).2.1

/-- C5 (amended): every data message an in-bounds put produces carries
the header `{i, j, height, width, alpha}` of the call — the global
region coordinates and scale — immediately followed by a payload of
exactly `localHeight * localWidth` entries (the entries of the region
owned by the destination, not `height * width` of them), in
column-major order relative to the packed region: the payload entry at
position `t * localHeight + s` is the caller-buffer entry
`(colShift + s * r, rowShift + t * c)`. -/
theorem updateMsg_format {T : Type} (testData : Nat → Nat → Bool)
    (alpha : T) (X : LocalMat T) (i j : Int) (st : IfaceState T)
    (hr : 0 < st.localToGlobalMat.grid.r)
    (hc : 0 < st.localToGlobalMat.grid.c)
    (hrow : st.localToGlobalMat.grid.myRow < st.localToGlobalMat.grid.r)
    (hcol : st.localToGlobalMat.grid.myCol < st.localToGlobalMat.grid.c)
    (hij : ¬(i < 0 ∨ j < 0))
    (hfit : ¬(i + X.height > st.localToGlobalMat.height ∨
      j + X.width > st.localToGlobalMat.width)) :
    ∀ m ∈ (AxpyLocalToGlobal testData alpha X i j st).sent,
      ∃ (row col : Nat) (payload : List T),
        row < st.localToGlobalMat.grid.r ∧
        col < st.localToGlobalMat.grid.c ∧
        m = Msg.data (row + st.localToGlobalMat.grid.r * col)
          ⟨i, j, X.height, X.width, alpha⟩ payload ∧
        payload.length =
          (putLocalWidth st.localToGlobalMat X.width j col).toNat *
            (putLocalHeight st.localToGlobalMat X.height i row).toNat ∧
        putLocalHeight st.localToGlobalMat X.height i row *
            putLocalWidth st.localToGlobalMat X.width j col ≠ 0 ∧
        ∀ t < (putLocalWidth st.localToGlobalMat X.width j col).toNat,
          ∀ s < (putLocalHeight st.localToGlobalMat X.height i row).toNat,
            payload[t * (putLocalHeight st.localToGlobalMat X.height i
                row).toNat + s]? =
              some (X.entry
                (putColShift st.localToGlobalMat i row +
                  (s : Int) * (st.localToGlobalMat.grid.r : Int))
                (putRowShift st.localToGlobalMat j col +
                  (t : Int) * (st.localToGlobalMat.grid.c : Int))) := by
  intro m hm
  rw [axpyLocalToGlobal_sent_eq testData alpha X i j st hij hfit] at hm
  obtain ⟨rc, hwalk, hput⟩ := List.mem_filterMap.mp hm
  obtain ⟨h1, h2⟩ := putWalk_valid _ _ hr hc _ _ _ hrow hcol rc hwalk
  simp only [putMsgAt] at hput
  by_cases hcond :
      LocalLength (⟨i, j, X.height, X.width, alpha⟩ :
          LocalToGlobalHeader T).height
        (Shift (rc.1 : Int)
          (cppMod (st.localToGlobalMat.colAlignment + i)
            (st.localToGlobalMat.grid.r : Int))
          (st.localToGlobalMat.grid.r : Int))
        (st.localToGlobalMat.grid.r : Int) *
      LocalLength (⟨i, j, X.height, X.width, alpha⟩ :
          LocalToGlobalHeader T).width
        (Shift (rc.2 : Int)
          (cppMod (st.localToGlobalMat.rowAlignment + j)
            (st.localToGlobalMat.grid.c : Int))
          (st.localToGlobalMat.grid.c : Int))
        (st.localToGlobalMat.grid.c : Int) ≠ 0
  · rw [if_pos hcond] at hput
    rw [Option.some.injEq] at hput
    refine ⟨rc.1, rc.2, _, h1, h2, hput.symm, ?_, ?_, ?_⟩
    · simp only [putLocalWidth, putLocalHeight, putColShift, putRowShift]
      exact packRegion_length _ _ _
    · simpa only [putLocalWidth, putLocalHeight, putColShift, putRowShift]
        using hcond
    · intro t ht s hs
      simp only [putLocalWidth, putLocalHeight, putColShift, putRowShift]
        at ht hs ⊢
      exact packRegion_getElem _ _ _ _ _ ht hs
  · rw [if_neg hcond] at hput
    exact absurd hput (by simp)

/-- Witness for the amended C5: the format statement instantiated at the
first message of a concrete in-bounds put. -/
theorem updateMsg_format_witness :
    ∃ (row col : Nat) (payload : List Int),
        row < (samplePutState ⟨2, 1, 0, 0⟩ 2 1).localToGlobalMat.grid.r ∧
        col < (samplePutState ⟨2, 1, 0, 0⟩ 2 1).localToGlobalMat.grid.c ∧
        Msg.data 0 (⟨0, 0, 2, 1, 3⟩ : LocalToGlobalHeader Int) [1] = Msg.data
          (row + (samplePutState ⟨2, 1, 0, 0⟩ 2 1).localToGlobalMat.grid.r *
            col)
          ⟨0, 0, (onesLocal 2 1).height, (onesLocal 2 1).width, 3⟩ payload ∧
        payload.length =
          (putLocalWidth (samplePutState ⟨2, 1, 0, 0⟩ 2 1).localToGlobalMat
            (onesLocal 2 1).width 0 col).toNat *
            (putLocalHeight (samplePutState ⟨2, 1, 0, 0⟩ 2 1).localToGlobalMat
              (onesLocal 2 1).height 0 row).toNat ∧
        putLocalHeight (samplePutState ⟨2, 1, 0, 0⟩ 2 1).localToGlobalMat
            (onesLocal 2 1).height 0 row *
            putLocalWidth (samplePutState ⟨2, 1, 0, 0⟩ 2 1).localToGlobalMat
              (onesLocal 2 1).width 0 col ≠ 0 ∧
        ∀ t < (putLocalWidth (samplePutState ⟨2, 1, 0, 0⟩ 2 1).localToGlobalMat
            (onesLocal 2 1).width 0 col).toNat,
          ∀ s < (putLocalHeight
              (samplePutState ⟨2, 1, 0, 0⟩ 2 1).localToGlobalMat
              (onesLocal 2 1).height 0 row).toNat,
            payload[t * (putLocalHeight
                (samplePutState ⟨2, 1, 0, 0⟩ 2 1).localToGlobalMat
                (onesLocal 2 1).height 0 row).toNat + s]? =
              some ((onesLocal 2 1).entry
                (putColShift (samplePutState ⟨2, 1, 0, 0⟩ 2 1).localToGlobalMat
                    0 row +
                  (s : Int) *
                    ((samplePutState
                      ⟨2, 1, 0, 0⟩ 2 1).localToGlobalMat.grid.r : Int))
                (putRowShift (samplePutState ⟨2, 1, 0, 0⟩ 2 1).localToGlobalMat
                    0 col +
                  (t : Int) *
                    ((samplePutState
                      ⟨2, 1, 0, 0⟩ 2 1).localToGlobalMat.grid.c : Int))) :=
  updateMsg_format allDone 3 (onesLocal 2 1) 0 0
    (samplePutState ⟨2, 1, 0, 0⟩ 2 1) (by decide) (by decide) (by decide)
    (by decide) (by decide) (by decide)
    (Msg.data 0 (⟨0, 0, 2, 1, 3⟩ : LocalToGlobalHeader Int) [1]) (by decide)

end Elemental
